import Mathlib

/-!
Verification of the reconciliation/diff core of chado-tools
(src/pychado/io/iobase.py, class ImportClient) against its specification.

The embedding models each relational table as a Lean list of records and each
ImportClient method as a pure function from the relevant table state to a new
table state, together with the entry it returns and the list of audit lines it
sends to the printer (the VerbosePrinter sink; verbosity only controls whether
the lines are actually printed, so we model the emitted lines themselves).
Fatal failures (raised exceptions, including the AttributeError raised by
accessing an attribute of a None query result) are modelled with Except.

The helper module utils.py is not among the sources; its functions
filter_objects and copy_attribute are modelled from the spec where used
(see the doc comments marked "Modelled from the spec").
-/

namespace ChadoTools

/-- Row of the cv table (controlled vocabulary). Natural key: name. -/
structure Cv where
  cv_id : Nat
  name : String
deriving DecidableEq, Repr

/-- Row of the cvterm table (controlled vocabulary term). -/
structure CvTerm where
  cvterm_id : Nat
  cv_id : Nat
  dbxref_id : Nat
  name : String
  is_relationshiptype : Bool
deriving DecidableEq, Repr

/-- Row of the db table (external database). Natural key: name. -/
structure Db where
  db_id : Nat
  name : String
deriving DecidableEq, Repr

/-- Row of the dbxref table (external reference). Natural key: (db_id, accession). -/
structure DbxRef where
  dbxref_id : Nat
  db_id : Nat
  accession : String
deriving DecidableEq, Repr

/-- Row of the organism table. Looked up by abbreviation. -/
structure Organism where
  organism_id : Nat
  abbreviation : String
deriving DecidableEq, Repr

/-- Row of the pub table (publication). Natural key: (uniquename, type_id). -/
structure Pub where
  uniquename : String
  type_id : Nat
  title : Option String
  volume : Option String
  volumetitle : Option String
  series_name : Option String
  issue : Option String
  pyear : Option String
  pages : Option String
  miniref : Option String
  publisher : Option String
  pubplace : Option String
  is_obsolete : Bool
deriving DecidableEq, Repr

/-- Row of the feature table. Natural key: (organism_id, type_id, uniquename). -/
structure Feature where
  organism_id : Nat
  type_id : Nat
  uniquename : String
  dbxref_id : Nat
  name : Option String
  residues : Option String
  seqlen : Option Int
  md5checksum : Option String
  is_analysis : Bool
  is_obsolete : Bool
deriving DecidableEq, Repr

/-- Row of the featureprop table: a (feature, type, rank) to value mapping. -/
structure FeatureProp where
  feature_id : Nat
  type_id : Nat
  value : String
  rank : Int
deriving DecidableEq, Repr

/-- Row of the synonym table. -/
structure Synonym where
  synonym_id : Nat
  type_id : Nat
  name : String
deriving DecidableEq, Repr

/-- Row of the feature_synonym table, linking a feature to a synonym. -/
structure FeatureSynonym where
  feature_id : Nat
  synonym_id : Nat
  pub_id : Nat
  is_internal : Bool
  is_current : Bool
deriving DecidableEq, Repr

/-- Outcome of an upsert, as reported by the spec: inserted, updated or unchanged. -/
inductive Outcome where
  | inserted
  | updated
  | unchanged
deriving DecidableEq, Repr

/-- Modelled from the spec: utils.copy_attribute (utils.py is not among the
sources). Per section 4.2, the Property Differ "copies the candidate's value
onto the existing record only if different" and reports whether a copy
occurred; pure value comparison. We model it one attribute at a time: given
the existing value and the candidate value it returns the value the existing
record holds afterwards, paired with whether a copy occurred. -/
def copy_attribute {α : Type} [DecidableEq α] (e n : α) : α × Bool :=
  if e = n then (e, false) else (n, true)

/-- Embedding of ImportClient.update_pub_properties: applies copy_attribute to
the fixed attribute list [title, volume, volumetitle, series_name, issue,
pyear, pages, miniref, publisher, pubplace, is_obsolete] and reports whether
any attribute was updated. -/
def update_pub_properties (e n : Pub) : Pub × Bool :=
  let c1 := copy_attribute e.title n.title
  let c2 := copy_attribute e.volume n.volume
  let c3 := copy_attribute e.volumetitle n.volumetitle
  let c4 := copy_attribute e.series_name n.series_name
  let c5 := copy_attribute e.issue n.issue
  let c6 := copy_attribute e.pyear n.pyear
  let c7 := copy_attribute e.pages n.pages
  let c8 := copy_attribute e.miniref n.miniref
  let c9 := copy_attribute e.publisher n.publisher
  let c10 := copy_attribute e.pubplace n.pubplace
  let c11 := copy_attribute e.is_obsolete n.is_obsolete
  ({ e with title := c1.1, volume := c2.1, volumetitle := c3.1,
            series_name := c4.1, issue := c5.1, pyear := c6.1, pages := c7.1,
            miniref := c8.1, publisher := c9.1, pubplace := c10.1,
            is_obsolete := c11.1 },
   c1.2 || c2.2 || c3.2 || c4.2 || c5.2 || c6.2 || c7.2 || c8.2 || c9.2 || c10.2 || c11.2)

/-- Embedding of ImportClient.update_feature_properties: applies
copy_attribute to the fixed attribute list [name, residues, seqlen,
md5checksum, is_analysis, is_obsolete] and reports whether any attribute was
updated. -/
def update_feature_properties (e n : Feature) : Feature × Bool :=
  let c1 := copy_attribute e.name n.name
  let c2 := copy_attribute e.residues n.residues
  let c3 := copy_attribute e.seqlen n.seqlen
  let c4 := copy_attribute e.md5checksum n.md5checksum
  let c5 := copy_attribute e.is_analysis n.is_analysis
  let c6 := copy_attribute e.is_obsolete n.is_obsolete
  ({ e with name := c1.1, residues := c2.1, seqlen := c3.1,
            md5checksum := c4.1, is_analysis := c5.1, is_obsolete := c6.1 },
   c1.2 || c2.2 || c3.2 || c4.2 || c5.2 || c6.2)

/-- Scan loop of ImportClient._handle_featureprop over the entries that match
the candidate's type_id, in list order. For each matching entry, if its value
equals the candidate's value the loop returns that entry at once (Python
"return matching_entry"); otherwise it mutates the candidate in place,
raising its rank to max(candidate.rank, entry.rank + 1), and continues. The
result pairs the equal-valued entry found (if any) with the candidate as
mutated so far. -/
def featureprop_scan (cand : FeatureProp) : List FeatureProp → Option FeatureProp × FeatureProp
  | [] => (none, cand)
  | e :: rest =>
    if e.value = cand.value then (some e, cand)
    else featureprop_scan { cand with rank := max cand.rank (e.rank + 1) } rest

/-- Result of one call to the featureprop upsert: the entry returned to the
caller, the candidate record after its in-place mutation, whether a new row
was inserted, and the audit lines emitted. -/
structure HandleFpResult where
  returned : FeatureProp
  candidate : FeatureProp
  inserted : Bool
  audit : List String
deriving DecidableEq, Repr

/-- Embedding of ImportClient._handle_featureprop. The entries of the given
existing set sharing the candidate's type_id are selected (utils.filter_objects,
modelled from the spec as attribute-equality filtering in list order) and
scanned by featureprop_scan; if an equal-valued entry was found it is returned
with no insertion and no audit line, otherwise the (rank-adjusted) candidate is
inserted and one audit line is emitted. -/
def handle_featureprop (cand : FeatureProp) (existing : List FeatureProp)
    (property_name value feature_name : String) : HandleFpResult :=
  match featureprop_scan cand (existing.filter (fun e => e.type_id == cand.type_id)) with
  | (some m, cand') => ⟨m, cand', false, []⟩
  | (none, cand') =>
    ⟨cand', cand', true,
     ["Inserted property " ++ property_name ++ " = " ++ value ++ " for feature " ++ feature_name]⟩

/-- Featureprop table state after one featureprop upsert call: the inserted
(rank-adjusted) candidate is appended when an insertion took place (session
add_and_flush), otherwise the table is unchanged. -/
def handle_featureprop_state (cand : FeatureProp) (existing : List FeatureProp) : List FeatureProp :=
  let r := handle_featureprop cand existing "" "" ""
  if r.inserted then existing ++ [r.candidate] else existing

/-- Modelled from the spec: one reconciliation pass per candidate, each pass
seeing the rows retained so far (section 5: the Matcher relies on
read-after-write visibility of rows inserted earlier; the import callers that
assemble the existing list are not among the sources). -/
def featureprop_passes (existing : List FeatureProp) (cands : List FeatureProp) : List FeatureProp :=
  cands.foldl (fun ex c => handle_featureprop_state c ex) existing

/-- Signature match used by the reverse pass of the featureprop reconciliation
(utils.filter_objects on type_id and rank, modelled from the spec). -/
def featureprop_sig_match (new_entries : List FeatureProp) (e : FeatureProp) : Bool :=
  new_entries.any (fun n => n.type_id == e.type_id && n.rank == e.rank)

/-- Embedding of ImportClient._delete_featureprop. Walks the existing entries
in order; an entry with no new entry sharing its (type_id, rank) signature is
deleted from the table and one audit line is emitted, naming the property type
(looked up in the cvterm table; a failed lookup makes the Python code raise an
AttributeError on None, modelled as an error). Returns the retained entries,
the deleted entries and the audit lines. -/
def delete_featureprop (cvterms : List CvTerm) (new_entries : List FeatureProp)
    (feature_name : String) :
    List FeatureProp → Except String (List FeatureProp × List FeatureProp × List String)
  | [] => .ok ([], [], [])
  | e :: rest =>
    if featureprop_sig_match new_entries e then
      match delete_featureprop cvterms new_entries feature_name rest with
      | .error m => .error m
      | .ok (ret, del, au) => .ok (e :: ret, del, au)
    else
      match cvterms.find? (fun t => t.cvterm_id == e.type_id) with
      | none => .error "AttributeError: NoneType object has no attribute name"
      | some t =>
        match delete_featureprop cvterms new_entries feature_name rest with
        | .error m => .error m
        | .ok (ret, del, au) =>
          .ok (ret, e :: del,
               ("Deleted property " ++ t.name ++ " = " ++ e.value ++ " for feature " ++ feature_name) :: au)

/-- Signature match used by the reverse pass of the feature_synonym
reconciliation (utils.filter_objects on synonym_id and pub_id, modelled from
the spec). -/
def feature_synonym_sig_match (new_entries : List FeatureSynonym) (e : FeatureSynonym) : Bool :=
  new_entries.any (fun n => n.synonym_id == e.synonym_id && n.pub_id == e.pub_id)

/-- Embedding of ImportClient._delete_feature_synonym. Walks the existing
entries in order; an entry with no new entry sharing its (synonym_id, pub_id)
signature is deleted and one audit line naming the synonym is emitted (synonym
name looked up in the synonym table; a failed lookup raises in Python,
modelled as an error). Returns the retained entries, the deleted entries and
the audit lines. -/
def delete_feature_synonym (syns : List Synonym) (new_entries : List FeatureSynonym)
    (feature_name : String) :
    List FeatureSynonym → Except String (List FeatureSynonym × List FeatureSynonym × List String)
  | [] => .ok ([], [], [])
  | e :: rest =>
    if feature_synonym_sig_match new_entries e then
      match delete_feature_synonym syns new_entries feature_name rest with
      | .error m => .error m
      | .ok (ret, del, au) => .ok (e :: ret, del, au)
    else
      match syns.find? (fun s => s.synonym_id == e.synonym_id) with
      | none => .error "AttributeError: NoneType object has no attribute name"
      | some syn =>
        match delete_feature_synonym syns new_entries feature_name rest with
        | .error m => .error m
        | .ok (ret, del, au) =>
          .ok (ret, e :: del,
               ("Deleted synonym " ++ syn.name ++ " for feature " ++ feature_name) :: au)

/-- Natural-key match of the feature table used by ImportClient._handle_feature
(query_first on organism_id, type_id and uniquename). -/
def feature_key_match (e n : Feature) : Bool :=
  e.organism_id == n.organism_id && e.type_id == n.type_id && e.uniquename == n.uniquename

/-- Embedding of ImportClient._handle_feature over the feature table state.
The first entry matching the candidate's natural key receives the property
update (update_feature_properties) in place, with an audit line when anything
changed; with no match, the candidate is appended to the table with an audit
line. Returns the entry handed back to the caller, the new table state, the
audit lines and the outcome. -/
def handle_feature (n : Feature) (organism_name : String) :
    List Feature → Feature × List Feature × List String × Outcome
  | [] => (n, [n],
           ["Inserted feature " ++ n.uniquename ++ " for organism " ++ organism_name],
           .inserted)
  | e :: rest =>
    if feature_key_match e n then
      let u := update_feature_properties e n
      (u.1, u.1 :: rest,
       if u.2 then ["Updated feature " ++ e.uniquename ++ " for organism " ++ organism_name]
       else [],
       if u.2 then .updated else .unchanged)
    else
      let r := handle_feature n organism_name rest
      (r.1, e :: r.2.1, r.2.2.1, r.2.2.2)

/-- Embedding of ImportClient._handle_cv over the cv table state: an entry of
the same name is returned untouched; otherwise the candidate is appended with
an audit line. -/
def handle_cv (n : Cv) (s : List Cv) : Cv × List Cv × List String :=
  match s.find? (fun e => e.name == n.name) with
  | some e => (e, s, [])
  | none => (n, s ++ [n], ["Inserted controlled vocabulary " ++ n.name])

/-- Embedding of ImportClient._handle_cvterm over the cvterm table state: an
entry with the same dbxref_id, or failing that with the same (cv_id, name), is
returned untouched; otherwise the candidate is appended with an audit line. -/
def handle_cvterm (n : CvTerm) (vocabulary : String) (s : List CvTerm) :
    CvTerm × List CvTerm × List String :=
  match s.find? (fun e => e.dbxref_id == n.dbxref_id) with
  | some e => (e, s, [])
  | none =>
    match s.find? (fun e => e.cv_id == n.cv_id && e.name == n.name) with
    | some e => (e, s, [])
    | none => (n, s ++ [n], ["Inserted term " ++ n.name ++ " in vocabulary " ++ vocabulary])

/-- Embedding of ImportClient._handle_db over the db table state. -/
def handle_db (n : Db) (s : List Db) : Db × List Db × List String :=
  match s.find? (fun e => e.name == n.name) with
  | some e => (e, s, [])
  | none => (n, s ++ [n], ["Inserted db " ++ n.name])

/-- Embedding of ImportClient._handle_dbxref over the dbxref table state. -/
def handle_dbxref (n : DbxRef) (db_authority : String) (s : List DbxRef) :
    DbxRef × List DbxRef × List String :=
  match s.find? (fun e => e.db_id == n.db_id && e.accession == n.accession) with
  | some e => (e, s, [])
  | none => (n, s ++ [n], ["Inserted dbxref " ++ db_authority ++ "." ++ n.accession])

/-- Embedding of ImportClient._load_cvterm: returns the first cvterm of the
given name, or fails with a DatabaseError naming the missing term; the table
state is handed back unmodified. -/
def load_cvterm (term : String) (s : List CvTerm) : Except String (CvTerm × List CvTerm) :=
  match s.find? (fun e => e.name == term) with
  | some e => .ok (e, s)
  | none => .error ("CV term " ++ term ++ " not present in database")

/-- Embedding of ImportClient._load_pub: returns the first pub of the given
uniquename, or fails with a DatabaseError naming the missing publication; the
table state is handed back unmodified. -/
def load_pub (pub_name : String) (s : List Pub) : Except String (Pub × List Pub) :=
  match s.find? (fun e => e.uniquename == pub_name) with
  | some e => .ok (e, s)
  | none => .error ("Pub " ++ pub_name ++ " not present in database")

/-- Embedding of ImportClient._load_organism: returns the first organism of
the given abbreviation, or fails with a DatabaseError naming the missing
organism; the table state is handed back unmodified. -/
def load_organism (organism_name : String) (s : List Organism) :
    Except String (Organism × List Organism) :=
  match s.find? (fun e => e.abbreviation == organism_name) with
  | some e => .ok (e, s)
  | none => .error ("Organism " ++ organism_name ++ " not present in database")

/-- Embedding of ImportClient._mark_feature_as_obsolete over the feature table
state. The first feature matching (organism_id, uniquename) has its obsolete
flag raised, with one audit line, unless it is already obsolete (no-op, no
audit line); with no match the Python code dereferences None and raises an
AttributeError, modelled as an error. Returns the feature handed back, the new
table state and the audit lines. -/
def mark_feature_as_obsolete (org : Organism) (uniquename : String) :
    List Feature → Except String (Feature × List Feature × List String)
  | [] => .error "AttributeError: NoneType object has no attribute is_obsolete"
  | e :: rest =>
    if e.organism_id == org.organism_id && e.uniquename == uniquename then
      if e.is_obsolete then .ok (e, e :: rest, [])
      else
        let e' := { e with is_obsolete := true }
        .ok (e', e' :: rest, ["Marked feature " ++ e.uniquename ++ " as obsolete"])
    else
      match mark_feature_as_obsolete org uniquename rest with
      | .error m => .error m
      | .ok (f, rest', au) => .ok (f, e :: rest', au)

/-- Rank non-collision invariant of the featureprop table: no two rows for the
same (feature, type) share a rank. -/
def ranks_ok (l : List FeatureProp) : Prop :=
  l.Pairwise (fun a b => a.feature_id = b.feature_id → a.type_id = b.type_id → a.rank ≠ b.rank)

lemma copy_attribute_fst {α : Type} [DecidableEq α] (e n : α) : (copy_attribute e n).1 = n := by
  unfold copy_attribute
  split_ifs with h
  · exact h
  · rfl

lemma copy_attribute_snd {α : Type} [DecidableEq α] (e n : α) :
    (copy_attribute e n).2 = true ↔ e ≠ n := by
  unfold copy_attribute
  split_ifs with h <;> simp [h]

lemma copy_attribute_self {α : Type} [DecidableEq α] (e : α) : copy_attribute e e = (e, false) := by
  simp [copy_attribute]

/-- C6. Diff correctness: for every existing record and candidate record of the
same kind (Feature or Pub), the property diff returns true iff at least one
allow-listed attribute of the existing record differs from the candidate's;
afterwards every allow-listed attribute of the existing record equals the
candidate's, and every attribute outside the allow-list is unchanged. -/
theorem C6_diff_correct :
    (∀ e n : Feature,
      ((update_feature_properties e n).2 = true ↔
        (e.name ≠ n.name ∨ e.residues ≠ n.residues ∨ e.seqlen ≠ n.seqlen ∨
         e.md5checksum ≠ n.md5checksum ∨ e.is_analysis ≠ n.is_analysis ∨
         e.is_obsolete ≠ n.is_obsolete)) ∧
      (update_feature_properties e n).1.name = n.name ∧
      (update_feature_properties e n).1.residues = n.residues ∧
      (update_feature_properties e n).1.seqlen = n.seqlen ∧
      (update_feature_properties e n).1.md5checksum = n.md5checksum ∧
      (update_feature_properties e n).1.is_analysis = n.is_analysis ∧
      (update_feature_properties e n).1.is_obsolete = n.is_obsolete ∧
      (update_feature_properties e n).1.organism_id = e.organism_id ∧
      (update_feature_properties e n).1.type_id = e.type_id ∧
      (update_feature_properties e n).1.uniquename = e.uniquename ∧
      (update_feature_properties e n).1.dbxref_id = e.dbxref_id) ∧
    (∀ e n : Pub,
      ((update_pub_properties e n).2 = true ↔
        (e.title ≠ n.title ∨ e.volume ≠ n.volume ∨ e.volumetitle ≠ n.volumetitle ∨
         e.series_name ≠ n.series_name ∨ e.issue ≠ n.issue ∨ e.pyear ≠ n.pyear ∨
         e.pages ≠ n.pages ∨ e.miniref ≠ n.miniref ∨ e.publisher ≠ n.publisher ∨
         e.pubplace ≠ n.pubplace ∨ e.is_obsolete ≠ n.is_obsolete)) ∧
      (update_pub_properties e n).1.title = n.title ∧
      (update_pub_properties e n).1.volume = n.volume ∧
      (update_pub_properties e n).1.volumetitle = n.volumetitle ∧
      (update_pub_properties e n).1.series_name = n.series_name ∧
      (update_pub_properties e n).1.issue = n.issue ∧
      (update_pub_properties e n).1.pyear = n.pyear ∧
      (update_pub_properties e n).1.pages = n.pages ∧
      (update_pub_properties e n).1.miniref = n.miniref ∧
      (update_pub_properties e n).1.publisher = n.publisher ∧
      (update_pub_properties e n).1.pubplace = n.pubplace ∧
      (update_pub_properties e n).1.is_obsolete = n.is_obsolete ∧
      (update_pub_properties e n).1.uniquename = e.uniquename ∧
      (update_pub_properties e n).1.type_id = e.type_id) := by
  constructor
  · intro e n
    refine ⟨?_, ?_, ?_, ?_, ?_, ?_, ?_, ?_, ?_, ?_, ?_⟩ <;>
      simp [update_feature_properties, copy_attribute_fst, copy_attribute_snd] <;> tauto
  · intro e n
    refine ⟨?_, ?_, ?_, ?_, ?_, ?_, ?_, ?_, ?_, ?_, ?_, ?_, ?_, ?_⟩ <;>
      simp [update_pub_properties, copy_attribute_fst, copy_attribute_snd] <;> tauto

/-- C3, counterexample. A feature whose obsolete flag is set, reconciled by the
feature upsert's property diff against a candidate whose flag is clear, has
its flag set back to false: the diff's allow-list covers is_obsolete, so the
core does clear the flag. -/
theorem C3_counterexample :
    (Feature.mk 1 2 "gene1" 3 none none none none false true).is_obsolete = true ∧
    (update_feature_properties
      (Feature.mk 1 2 "gene1" 3 none none none none false true)
      (Feature.mk 1 2 "gene1" 3 none none none none false false)).1.is_obsolete = false := by
  constructor
  · rfl
  · decide

/-- C3, amended. Obsolescence is monotonic under mark_obsolete: whenever
_mark_feature_as_obsolete succeeds, every feature whose obsolete flag was set
still has it set in the resulting table state. The feature upsert's property
diff, however, covers is_obsolete and always leaves the existing record's flag
equal to the candidate's, so it can clear the flag. -/
theorem C3_amended_obsolescence :
    (∀ (org : Organism) (un : String) (s : List Feature) f' s' au,
        mark_feature_as_obsolete org un s = .ok (f', s', au) →
        List.Forall₂ (fun a b => a.is_obsolete = true → b.is_obsolete = true) s s') ∧
    (∀ e n : Feature, (update_feature_properties e n).1.is_obsolete = n.is_obsolete) := by
  constructor
  · intro org un s
    induction s with
    | nil => intro f' s' au h; simp [mark_feature_as_obsolete] at h
    | cons e rest ih =>
      intro f' s' au h
      unfold mark_feature_as_obsolete at h
      by_cases hk : (e.organism_id == org.organism_id && e.uniquename == un) = true
      · rw [if_pos hk] at h
        by_cases ho : e.is_obsolete = true
        · rw [if_pos ho] at h
          cases h
          exact List.forall₂_same.mpr (fun x _ => fun hx => hx)
        · rw [if_neg ho] at h
          cases h
          exact List.Forall₂.cons (fun _ => rfl) (List.forall₂_same.mpr (fun x _ => fun hx => hx))
      · rw [if_neg hk] at h
        cases hrec : mark_feature_as_obsolete org un rest with
        | error m => rw [hrec] at h; cases h
        | ok v =>
          obtain ⟨f, rest', au2⟩ := v
          rw [hrec] at h
          simp only [Except.ok.injEq, Prod.mk.injEq] at h
          obtain ⟨h1, h2, h3⟩ := h
          subst h2
          exact List.Forall₂.cons (fun hx => hx) (ih f rest' au2 hrec)
  · intro e n
    simp [update_feature_properties, copy_attribute_fst]

/-- Witness for C3_amended_obsolescence at a concrete input: marking an
already-obsolete feature succeeds and preserves every set flag, and the diff
applied to concrete records leaves the flag equal to the candidate's. -/
theorem C3_amended_obsolescence_witness :
    List.Forall₂ (fun a b => a.is_obsolete = true → b.is_obsolete = true)
      [Feature.mk 1 2 "gene1" 3 none none none none false true]
      [Feature.mk 1 2 "gene1" 3 none none none none false true] :=
  C3_amended_obsolescence.1 (Organism.mk 1 "org1") "gene1"
    [Feature.mk 1 2 "gene1" 3 none none none none false true]
    (Feature.mk 1 2 "gene1" 3 none none none none false true)
    [Feature.mk 1 2 "gene1" 3 none none none none false true]
    [] rfl

lemma feature_key_match_self (n : Feature) : feature_key_match n n = true := by
  simp [feature_key_match]

lemma update_feature_properties_self (n : Feature) : update_feature_properties n n = (n, false) := by
  simp [update_feature_properties, copy_attribute_self]

lemma handle_feature_insert (n : Feature) (oname : String) :
    ∀ s : List Feature, (∀ e ∈ s, feature_key_match e n = false) →
      handle_feature n oname s =
        (n, s ++ [n], ["Inserted feature " ++ n.uniquename ++ " for organism " ++ oname],
         .inserted) := by
  intro s
  induction s with
  | nil => intro _; rfl
  | cons e rest ih =>
    intro h
    have he : feature_key_match e n = false := h e (List.mem_cons_self e rest)
    have hrest : ∀ x ∈ rest, feature_key_match x n = false :=
      fun x hx => h x (List.mem_cons_of_mem e hx)
    simp [handle_feature, he, ih hrest]

lemma handle_feature_unchanged_after (n : Feature) (oname : String) :
    ∀ s : List Feature, (∀ e ∈ s, feature_key_match e n = false) →
      handle_feature n oname (s ++ [n]) = (n, s ++ [n], [], .unchanged) := by
  intro s
  induction s with
  | nil =>
    intro _
    simp [handle_feature, feature_key_match_self, update_feature_properties_self]
  | cons e rest ih =>
    intro h
    have he : feature_key_match e n = false := h e (List.mem_cons_self e rest)
    have hrest : ∀ x ∈ rest, feature_key_match x n = false :=
      fun x hx => h x (List.mem_cons_of_mem e hx)
    simp [handle_feature, he, ih hrest]

/-- C5. Upsert idempotence for the feature upsert: on a table with no entry
matching the candidate's natural key, the first call reports inserted and
appends the candidate; a second call with the identical candidate on the
resulting table reports unchanged, emits no audit line, and leaves the table
state exactly as it was after the first call. -/
theorem C5_upsert_idempotent (n : Feature) (oname : String) (s : List Feature)
    (h : ∀ e ∈ s, feature_key_match e n = false) :
    (handle_feature n oname s).2.2.2 = .inserted ∧
    (handle_feature n oname s).2.1 = s ++ [n] ∧
    (handle_feature n oname (s ++ [n])).2.2.2 = .unchanged ∧
    (handle_feature n oname (s ++ [n])).2.2.1 = [] ∧
    (handle_feature n oname (s ++ [n])).2.1 = s ++ [n] := by
  rw [handle_feature_insert n oname s h, handle_feature_unchanged_after n oname s h]
  exact ⟨rfl, rfl, rfl, rfl, rfl⟩

/-- Witness for C5_upsert_idempotent at a concrete input: a concrete candidate
upserted twice into an initially empty feature table. -/
theorem C5_upsert_idempotent_witness :
    (handle_feature (Feature.mk 1 2 "gene1" 3 none none none none false false) "org1" []).2.2.2
        = .inserted ∧
    (handle_feature (Feature.mk 1 2 "gene1" 3 none none none none false false) "org1"
        ([] ++ [Feature.mk 1 2 "gene1" 3 none none none none false false])).2.2.2
        = .unchanged :=
  ⟨(C5_upsert_idempotent (Feature.mk 1 2 "gene1" 3 none none none none false false) "org1" []
      (by intro e he; cases he)).1,
   (C5_upsert_idempotent (Feature.mk 1 2 "gene1" 3 none none none none false false) "org1" []
      (by intro e he; cases he)).2.2.1⟩

lemma featureprop_scan_fields (l : List FeatureProp) (cand : FeatureProp) :
    (featureprop_scan cand l).2.value = cand.value ∧
    (featureprop_scan cand l).2.type_id = cand.type_id ∧
    (featureprop_scan cand l).2.feature_id = cand.feature_id := by
  induction l generalizing cand with
  | nil => exact ⟨rfl, rfl, rfl⟩
  | cons e rest ih =>
    by_cases h : e.value = cand.value
    · simp only [featureprop_scan]
      rw [if_pos h]
      exact ⟨rfl, rfl, rfl⟩
    · simp only [featureprop_scan]
      rw [if_neg h]
      exact ih { cand with rank := max cand.rank (e.rank + 1) }

lemma featureprop_scan_rank_ge (l : List FeatureProp) (cand : FeatureProp) :
    cand.rank ≤ (featureprop_scan cand l).2.rank := by
  induction l generalizing cand with
  | nil => exact le_refl _
  | cons e rest ih =>
    by_cases h : e.value = cand.value
    · simp only [featureprop_scan]
      rw [if_pos h]
    · simp only [featureprop_scan]
      rw [if_neg h]
      calc cand.rank ≤ max cand.rank (e.rank + 1) := le_max_left _ _
        _ ≤ _ := ih { cand with rank := max cand.rank (e.rank + 1) }

lemma featureprop_scan_none_gt (l : List FeatureProp) (cand : FeatureProp)
    (h : (featureprop_scan cand l).1 = none) :
    ∀ e ∈ l, e.rank < (featureprop_scan cand l).2.rank := by
  induction l generalizing cand with
  | nil => intro e he; cases he
  | cons e rest ih =>
    by_cases hv : e.value = cand.value
    · simp only [featureprop_scan] at h
      rw [if_pos hv] at h
      cases h
    · simp only [featureprop_scan] at h ⊢
      rw [if_neg hv] at h ⊢
      intro x hx
      rcases List.mem_cons.mp hx with hx | hx
      · subst hx
        calc x.rank < x.rank + 1 := lt_add_one _
          _ ≤ max cand.rank (x.rank + 1) := le_max_right _ _
          _ ≤ _ := featureprop_scan_rank_ge rest { cand with rank := max cand.rank (x.rank + 1) }
      · exact ih { cand with rank := max cand.rank (e.rank + 1) } h x hx

lemma featureprop_scan_some (l : List FeatureProp) (cand m : FeatureProp)
    (h : (featureprop_scan cand l).1 = some m) :
    m ∈ l ∧ m.value = cand.value := by
  induction l generalizing cand with
  | nil => cases h
  | cons e rest ih =>
    by_cases hv : e.value = cand.value
    · simp only [featureprop_scan] at h
      rw [if_pos hv] at h
      injection h with h
      subst h
      exact ⟨List.mem_cons_self _ _, hv⟩
    · simp only [featureprop_scan] at h
      rw [if_neg hv] at h
      obtain ⟨hm, hval⟩ := ih { cand with rank := max cand.rank (e.rank + 1) } h
      exact ⟨List.mem_cons_of_mem e hm, hval⟩

lemma featureprop_scan_rank_fold (l : List FeatureProp) (cand : FeatureProp) :
    (featureprop_scan cand l).2.rank =
      (l.takeWhile (fun e => !(e.value == cand.value))).foldl
        (fun r e => max r (e.rank + 1)) cand.rank := by
  induction l generalizing cand with
  | nil => rfl
  | cons e rest ih =>
    by_cases hv : e.value = cand.value
    · simp only [featureprop_scan, List.takeWhile]
      rw [if_pos hv]
      simp [hv]
    · simp only [featureprop_scan, List.takeWhile]
      rw [if_neg hv]
      have hb : (e.value == cand.value) = false := beq_eq_false_iff_ne.mpr hv
      rw [hb]
      simpa using ih { cand with rank := max cand.rank (e.rank + 1) }

lemma handle_featureprop_candidate (cand : FeatureProp) (existing : List FeatureProp)
    (pn v fn : String) :
    (handle_featureprop cand existing pn v fn).candidate =
      (featureprop_scan cand (existing.filter (fun e => e.type_id == cand.type_id))).2 := by
  unfold handle_featureprop
  rcases hs : featureprop_scan cand (existing.filter (fun e => e.type_id == cand.type_id))
    with ⟨o, c⟩
  cases o <;> rfl

lemma handle_featureprop_inserted_iff (cand : FeatureProp) (existing : List FeatureProp)
    (pn v fn : String) :
    (handle_featureprop cand existing pn v fn).inserted = true ↔
      (featureprop_scan cand (existing.filter (fun e => e.type_id == cand.type_id))).1 = none := by
  unfold handle_featureprop
  rcases hs : featureprop_scan cand (existing.filter (fun e => e.type_id == cand.type_id))
    with ⟨o, c⟩
  cases o <;> simp

lemma handle_featureprop_returned_of_some (cand : FeatureProp) (existing : List FeatureProp)
    (pn v fn : String) (m : FeatureProp)
    (h : (featureprop_scan cand (existing.filter (fun e => e.type_id == cand.type_id))).1 = some m) :
    (handle_featureprop cand existing pn v fn).returned = m := by
  unfold handle_featureprop
  rcases hs : featureprop_scan cand (existing.filter (fun e => e.type_id == cand.type_id))
    with ⟨o, c⟩
  rw [hs] at h
  cases o with
  | none => cases h
  | some m' => injection h with h

lemma handle_featureprop_inserted_gt (cand : FeatureProp) (existing : List FeatureProp)
    (pn v fn : String)
    (h : (handle_featureprop cand existing pn v fn).inserted = true) :
    ∀ e ∈ existing, e.type_id = cand.type_id →
      e.rank < (handle_featureprop cand existing pn v fn).candidate.rank := by
  intro e he ht
  rw [handle_featureprop_candidate]
  have hnone := (handle_featureprop_inserted_iff cand existing pn v fn).mp h
  refine featureprop_scan_none_gt _ cand hnone e ?_
  refine List.mem_filter.mpr ⟨he, ?_⟩
  exact beq_iff_eq.mpr ht

lemma handle_featureprop_rank_ge (cand : FeatureProp) (existing : List FeatureProp)
    (pn v fn : String) :
    cand.rank ≤ (handle_featureprop cand existing pn v fn).candidate.rank := by
  rw [handle_featureprop_candidate]
  exact featureprop_scan_rank_ge _ cand

lemma handle_featureprop_state_ranks_ok (cand : FeatureProp) (existing : List FeatureProp)
    (h : ranks_ok existing) : ranks_ok (handle_featureprop_state cand existing) := by
  unfold handle_featureprop_state
  by_cases hi : (handle_featureprop cand existing "" "" "").inserted = true
  · rw [if_pos hi]
    unfold ranks_ok
    rw [List.pairwise_append]
    refine ⟨h, List.pairwise_singleton _ _, ?_⟩
    intro a ha b hb
    rw [List.mem_singleton] at hb
    subst hb
    intro _ hty
    have hc : (handle_featureprop cand existing "" "" "").candidate.type_id = cand.type_id := by
      rw [handle_featureprop_candidate]
      exact (featureprop_scan_fields _ cand).2.1
    have := handle_featureprop_inserted_gt cand existing "" "" "" hi a ha (by rw [← hc, ← hty])
    exact ne_of_lt this
  · rw [if_neg hi]
    exact h

lemma featureprop_passes_ranks_ok (cands : List FeatureProp) (existing : List FeatureProp)
    (h : ranks_ok existing) : ranks_ok (featureprop_passes existing cands) := by
  induction cands generalizing existing with
  | nil => exact h
  | cons c rest ih =>
    unfold featureprop_passes at *
    exact ih _ (handle_featureprop_state_ranks_ok c existing h)

/-- C2. Rank non-collision: whenever the featureprop upsert inserts its
candidate, the candidate's final rank is strictly greater than the rank of
every existing row sharing its type, and the candidate's rank is never
lowered; hence the invariant that no two retained rows for the same
(feature, type) share a rank is preserved by a call and by any number of
reconciliation passes (each pass reconciling one candidate against the rows
retained so far). -/
theorem C2_rank_non_collision (cand : FeatureProp) (existing : List FeatureProp)
    (cands : List FeatureProp) :
    ((handle_featureprop cand existing "" "" "").inserted = true →
      ∀ e ∈ existing, e.type_id = cand.type_id →
        e.rank < (handle_featureprop cand existing "" "" "").candidate.rank) ∧
    cand.rank ≤ (handle_featureprop cand existing "" "" "").candidate.rank ∧
    (ranks_ok existing → ranks_ok (handle_featureprop_state cand existing)) ∧
    (ranks_ok existing → ranks_ok (featureprop_passes existing cands)) :=
  ⟨handle_featureprop_inserted_gt cand existing "" "" "",
   handle_featureprop_rank_ge cand existing "" "" "",
   handle_featureprop_state_ranks_ok cand existing,
   featureprop_passes_ranks_ok cands existing⟩

/-- Witness for C2_rank_non_collision at a concrete input: reconciling a
candidate of the same type and a different value against a one-row table. -/
theorem C2_rank_non_collision_witness :
    (FeatureProp.mk 1 10 "A" 0).rank <
      (handle_featureprop (FeatureProp.mk 1 10 "B" 0) [FeatureProp.mk 1 10 "A" 0]
        "" "" "").candidate.rank ∧
    ranks_ok (handle_featureprop_state (FeatureProp.mk 1 10 "B" 0) [FeatureProp.mk 1 10 "A" 0]) :=
  ⟨(C2_rank_non_collision (FeatureProp.mk 1 10 "B" 0) [FeatureProp.mk 1 10 "A" 0] []).1
      rfl (FeatureProp.mk 1 10 "A" 0) (List.mem_singleton.mpr rfl) rfl,
   (C2_rank_non_collision (FeatureProp.mk 1 10 "B" 0) [FeatureProp.mk 1 10 "A" 0] []).2.2.1
      (List.pairwise_singleton _ _)⟩

/-- C10, counterexample. The in-place rank mutation does not cover every
existing entry of the candidate's type with a differing value: the scan stops
at the first equal-valued entry, so a differing entry listed after it never
raises the rank. With existing entries [(type 10, rank 0, value B),
(type 10, rank 5, value C)] and candidate (type 10, rank 0, value B), the call
returns the equal-valued entry with the candidate's rank still 0, although the
entry (rank 5, value C) differs in value and the claim demands a raise to
max(0, 5 + 1) = 6. -/
theorem C10_counterexample :
    (handle_featureprop (FeatureProp.mk 1 10 "B" 0)
        [FeatureProp.mk 1 10 "B" 0, FeatureProp.mk 1 10 "C" 5] "" "" "").candidate.rank = 0 ∧
    FeatureProp.mk 1 10 "C" 5 ∈ [FeatureProp.mk 1 10 "B" 0, FeatureProp.mk 1 10 "C" 5] ∧
    (FeatureProp.mk 1 10 "C" 5).type_id = (FeatureProp.mk 1 10 "B" 0).type_id ∧
    (FeatureProp.mk 1 10 "C" 5).value ≠ (FeatureProp.mk 1 10 "B" 0).value ∧
    ¬ (max ((FeatureProp.mk 1 10 "B" 0).rank) ((FeatureProp.mk 1 10 "C" 5).rank + 1) ≤
        (handle_featureprop (FeatureProp.mk 1 10 "B" 0)
          [FeatureProp.mk 1 10 "B" 0, FeatureProp.mk 1 10 "C" 5] "" "" "").candidate.rank) := by
  refine ⟨rfl, by decide, rfl, by decide, by decide⟩

/-- C10, amended. The featureprop upsert mutates its candidate argument in
place: scanning the existing entries of the candidate's type in list order, it
raises the candidate's rank to max(candidate.rank, entry.rank + 1) for each
differing-valued entry encountered before the first equal-valued entry (at
which the scan stops), leaving every other candidate field unchanged; the
mutated rank is what the caller's candidate record carries afterwards, also
when the call ends by returning an existing equal-valued entry without
inserting the candidate. -/
theorem C10_amended_mutation (cand : FeatureProp) (existing : List FeatureProp)
    (pn v fn : String) :
    ((handle_featureprop cand existing pn v fn).candidate.rank =
      ((existing.filter (fun e => e.type_id == cand.type_id)).takeWhile
          (fun e => !(e.value == cand.value))).foldl (fun r e => max r (e.rank + 1)) cand.rank) ∧
    (handle_featureprop cand existing pn v fn).candidate.feature_id = cand.feature_id ∧
    (handle_featureprop cand existing pn v fn).candidate.type_id = cand.type_id ∧
    (handle_featureprop cand existing pn v fn).candidate.value = cand.value ∧
    ((handle_featureprop cand existing pn v fn).inserted = false →
      ∃ m ∈ existing, (handle_featureprop cand existing pn v fn).returned = m ∧
        m.value = cand.value ∧ m.type_id = cand.type_id) := by
  refine ⟨?_, ?_, ?_, ?_, ?_⟩
  · rw [handle_featureprop_candidate]
    exact featureprop_scan_rank_fold _ cand
  · rw [handle_featureprop_candidate]
    exact (featureprop_scan_fields _ cand).2.2
  · rw [handle_featureprop_candidate]
    exact (featureprop_scan_fields _ cand).2.1
  · rw [handle_featureprop_candidate]
    exact (featureprop_scan_fields _ cand).1
  · intro hni
    have hsome : ∃ m, (featureprop_scan cand
        (existing.filter (fun e => e.type_id == cand.type_id))).1 = some m := by
      rcases ho : (featureprop_scan cand
          (existing.filter (fun e => e.type_id == cand.type_id))).1 with _ | m
      · have := (handle_featureprop_inserted_iff cand existing pn v fn).mpr ho
        rw [this] at hni
        cases hni
      · exact ⟨m, rfl⟩
    obtain ⟨m, hm⟩ := hsome
    obtain ⟨hmem, hval⟩ := featureprop_scan_some _ cand m hm
    have hret := handle_featureprop_returned_of_some cand existing pn v fn m hm
    obtain ⟨hmemex, hty⟩ := List.mem_filter.mp hmem
    exact ⟨m, hmemex, hret, hval, beq_iff_eq.mp hty⟩

/-- Witness for C10_amended_mutation at a concrete input: a candidate whose
value equals an existing entry of its type is not inserted, and the returned
entry is that existing entry. -/
theorem C10_amended_mutation_witness :
    ∃ m ∈ [FeatureProp.mk 1 10 "B" 4],
      (handle_featureprop (FeatureProp.mk 1 10 "B" 0) [FeatureProp.mk 1 10 "B" 4]
          "" "" "").returned = m ∧
      m.value = (FeatureProp.mk 1 10 "B" 0).value ∧
      m.type_id = (FeatureProp.mk 1 10 "B" 0).type_id :=
  (C10_amended_mutation (FeatureProp.mk 1 10 "B" 0) [FeatureProp.mk 1 10 "B" 4]
    "" "" "").2.2.2.2 rfl

/-- C1, counterexample. On the featureprop scenario (existing set
{(type 10, rank 0, value A)}, candidate (type 10, rank 0, value B)), the
forward pass does insert exactly one new row with rank 1 and value B, but the
reverse delete pass then deletes the existing row: the candidate handed to the
delete pass carries its raised rank 1, so no new entry shares the existing
row's (type, rank 0) signature. The existing row is not left untouched and the
number of deletions is 1, not 0. -/
theorem C1_counterexample :
    (handle_featureprop (FeatureProp.mk 1 10 "B" 0) [FeatureProp.mk 1 10 "A" 0]
        "note" "B" "feat1").inserted = true ∧
    (handle_featureprop (FeatureProp.mk 1 10 "B" 0) [FeatureProp.mk 1 10 "A" 0]
        "note" "B" "feat1").candidate = FeatureProp.mk 1 10 "B" 1 ∧
    delete_featureprop [CvTerm.mk 10 1 1 "note" false]
        [(handle_featureprop (FeatureProp.mk 1 10 "B" 0) [FeatureProp.mk 1 10 "A" 0]
            "note" "B" "feat1").returned]
        "feat1" [FeatureProp.mk 1 10 "A" 0] =
      .ok ([], [FeatureProp.mk 1 10 "A" 0],
           ["Deleted property note = A for feature feat1"]) ∧
    ([FeatureProp.mk 1 10 "A" 0] : List FeatureProp) ≠ [] :=
  ⟨rfl, rfl, rfl, by decide⟩

/-- C1, amended. For the featureprop scenario (existing set
{(type 10, rank 0, value A)}, candidate set {(type 10, rank 0, value B)}): the
forward pass inserts exactly one new row with rank 1 and value B (one
insertion, one audit line, no update); the reverse delete pass over the
existing set, given the candidate set the forward pass produced, deletes the
existing row (one deletion, one audit line), retaining nothing of the existing
set; so the pair of passes performs 1 insertion, 1 deletion and 0 updates, and
the rows present afterwards are the inserted (rank 1, value B) row alone. -/
theorem C1_amended_scenario :
    handle_featureprop (FeatureProp.mk 1 10 "B" 0) [FeatureProp.mk 1 10 "A" 0]
        "note" "B" "feat1" =
      HandleFpResult.mk (FeatureProp.mk 1 10 "B" 1) (FeatureProp.mk 1 10 "B" 1) true
        ["Inserted property note = B for feature feat1"] ∧
    handle_featureprop_state (FeatureProp.mk 1 10 "B" 0) [FeatureProp.mk 1 10 "A" 0] =
      [FeatureProp.mk 1 10 "A" 0, FeatureProp.mk 1 10 "B" 1] ∧
    delete_featureprop [CvTerm.mk 10 1 1 "note" false] [FeatureProp.mk 1 10 "B" 1]
        "feat1" [FeatureProp.mk 1 10 "A" 0] =
      .ok ([], [FeatureProp.mk 1 10 "A" 0],
           ["Deleted property note = A for feature feat1"]) :=
  ⟨rfl, rfl, rfl⟩

lemma delete_feature_synonym_spec (syns : List Synonym) (new_entries : List FeatureSynonym)
    (fn : String) :
    ∀ existing : List FeatureSynonym,
      (∀ e ∈ existing, (syns.find? (fun s => s.synonym_id == e.synonym_id)).isSome) →
      ∃ au, delete_feature_synonym syns new_entries fn existing =
          .ok (existing.filter (fun e => feature_synonym_sig_match new_entries e),
               existing.filter (fun e => !(feature_synonym_sig_match new_entries e)), au) ∧
        au.length = (existing.filter (fun e => !(feature_synonym_sig_match new_entries e))).length := by
  intro existing
  induction existing with
  | nil => intro _; exact ⟨[], rfl, rfl⟩
  | cons e rest ih =>
    intro h
    have hrest : ∀ x ∈ rest, (syns.find? (fun s => s.synonym_id == x.synonym_id)).isSome :=
      fun x hx => h x (List.mem_cons_of_mem e hx)
    obtain ⟨au, hok, hlen⟩ := ih hrest
    by_cases hm : feature_synonym_sig_match new_entries e = true
    · refine ⟨au, ?_, ?_⟩
      · simp only [delete_feature_synonym]
        rw [if_pos hm, hok]
        simp [List.filter, hm]
      · simp [List.filter, hm, hlen]
    · have hfind := h e (List.mem_cons_self e rest)
      obtain ⟨syn, hsyn⟩ := Option.isSome_iff_exists.mp hfind
      refine ⟨("Deleted synonym " ++ syn.name ++ " for feature " ++ fn) :: au, ?_, ?_⟩
      · simp only [delete_feature_synonym]
        rw [if_neg hm, hsyn, hok]
        simp only [List.filter]
        rw [Bool.eq_false_iff.mpr hm]
        simp [Bool.not_eq_true] at hm
        simp [hm]
      · simp only [List.filter]
        rw [Bool.eq_false_iff.mpr hm]
        simp [Bool.not_eq_true] at hm
        simp [hm, hlen]

lemma delete_featureprop_spec (cvterms : List CvTerm) (new_entries : List FeatureProp)
    (fn : String) :
    ∀ existing : List FeatureProp,
      (∀ e ∈ existing, (cvterms.find? (fun t => t.cvterm_id == e.type_id)).isSome) →
      ∃ au, delete_featureprop cvterms new_entries fn existing =
          .ok (existing.filter (fun e => featureprop_sig_match new_entries e),
               existing.filter (fun e => !(featureprop_sig_match new_entries e)), au) ∧
        au.length = (existing.filter (fun e => !(featureprop_sig_match new_entries e))).length := by
  intro existing
  induction existing with
  | nil => intro _; exact ⟨[], rfl, rfl⟩
  | cons e rest ih =>
    intro h
    have hrest : ∀ x ∈ rest, (cvterms.find? (fun t => t.cvterm_id == x.type_id)).isSome :=
      fun x hx => h x (List.mem_cons_of_mem e hx)
    obtain ⟨au, hok, hlen⟩ := ih hrest
    by_cases hm : featureprop_sig_match new_entries e = true
    · refine ⟨au, ?_, ?_⟩
      · simp only [delete_featureprop]
        rw [if_pos hm, hok]
        simp [List.filter, hm]
      · simp [List.filter, hm, hlen]
    · have hfind := h e (List.mem_cons_self e rest)
      obtain ⟨t, ht⟩ := Option.isSome_iff_exists.mp hfind
      refine ⟨("Deleted property " ++ t.name ++ " = " ++ e.value ++ " for feature " ++ fn) :: au,
        ?_, ?_⟩
      · simp only [delete_featureprop]
        rw [if_neg hm, ht, hok]
        simp only [List.filter]
        rw [Bool.eq_false_iff.mpr hm]
        simp [Bool.not_eq_true] at hm
        simp [hm]
      · simp only [List.filter]
        rw [Bool.eq_false_iff.mpr hm]
        simp [Bool.not_eq_true] at hm
        simp [hm, hlen]

/-- C7. Reverse-pass deletion completeness: the delete pass over an existing
set E with candidate set C (feature_synonym entries matched on
(synonym_id, pub_id); featureprop entries matched on (type_id, rank)) retains
exactly the rows of E whose full structural signature is shared by some row of
C, deletes exactly the others, and emits one audit line per deleted row;
provided each deletion's display-name lookup succeeds. -/
theorem C7_delete_complete :
    (∀ (syns : List Synonym) (new_entries existing : List FeatureSynonym) (fn : String),
      (∀ e ∈ existing, (syns.find? (fun s => s.synonym_id == e.synonym_id)).isSome) →
      ∃ au, delete_feature_synonym syns new_entries fn existing =
          .ok (existing.filter (fun e => feature_synonym_sig_match new_entries e),
               existing.filter (fun e => !(feature_synonym_sig_match new_entries e)), au) ∧
        au.length = (existing.filter (fun e => !(feature_synonym_sig_match new_entries e))).length) ∧
    (∀ (cvterms : List CvTerm) (new_entries existing : List FeatureProp) (fn : String),
      (∀ e ∈ existing, (cvterms.find? (fun t => t.cvterm_id == e.type_id)).isSome) →
      ∃ au, delete_featureprop cvterms new_entries fn existing =
          .ok (existing.filter (fun e => featureprop_sig_match new_entries e),
               existing.filter (fun e => !(featureprop_sig_match new_entries e)), au) ∧
        au.length = (existing.filter (fun e => !(featureprop_sig_match new_entries e))).length) :=
  ⟨fun syns new_entries existing fn h => delete_feature_synonym_spec syns new_entries fn existing h,
   fun cvterms new_entries existing fn h => delete_featureprop_spec cvterms new_entries fn existing h⟩

/-- Witness for C7_delete_complete at a concrete input: the scenario of an
existing FeatureSynonym set with two entries and an empty candidate set; both
entries are deleted, two audit lines are emitted, the retained set is empty. -/
theorem C7_delete_complete_witness :
    ∃ au, delete_feature_synonym [Synonym.mk 5 1 "syn1", Synonym.mk 6 1 "syn2"] [] "feat1"
        [FeatureSynonym.mk 1 5 1 false true, FeatureSynonym.mk 1 6 1 false true] =
      .ok ([], [FeatureSynonym.mk 1 5 1 false true, FeatureSynonym.mk 1 6 1 false true], au) ∧
    au.length = 2 :=
  C7_delete_complete.1 [Synonym.mk 5 1 "syn1", Synonym.mk 6 1 "syn2"] []
    [FeatureSynonym.mk 1 5 1 false true, FeatureSynonym.mk 1 6 1 false true] "feat1"
    (by decide)

/-- C8. Missing-reference errors: each lookup-loading operation (load CV term
by name, load publication by uniquename, load organism by abbreviation) fails
with a fatal DatabaseError message naming the missing entity exactly when no
entity with that natural key is in the table, and otherwise returns a matching
entry together with the unmodified table state. -/
theorem C8_missing_reference :
    (∀ (term : String) (s : List CvTerm),
      ((∃ e ∈ s, e.name = term) →
        ∃ e, load_cvterm term s = .ok (e, s) ∧ e ∈ s ∧ e.name = term) ∧
      ((∀ e ∈ s, e.name ≠ term) →
        load_cvterm term s = .error ("CV term " ++ term ++ " not present in database"))) ∧
    (∀ (pub_name : String) (s : List Pub),
      ((∃ e ∈ s, e.uniquename = pub_name) →
        ∃ e, load_pub pub_name s = .ok (e, s) ∧ e ∈ s ∧ e.uniquename = pub_name) ∧
      ((∀ e ∈ s, e.uniquename ≠ pub_name) →
        load_pub pub_name s = .error ("Pub " ++ pub_name ++ " not present in database"))) ∧
    (∀ (organism_name : String) (s : List Organism),
      ((∃ e ∈ s, e.abbreviation = organism_name) →
        ∃ e, load_organism organism_name s = .ok (e, s) ∧ e ∈ s ∧ e.abbreviation = organism_name) ∧
      ((∀ e ∈ s, e.abbreviation ≠ organism_name) →
        load_organism organism_name s =
          .error ("Organism " ++ organism_name ++ " not present in database"))) := by
  refine ⟨fun term s => ⟨?_, ?_⟩, fun pn s => ⟨?_, ?_⟩, fun on' s => ⟨?_, ?_⟩⟩
  · intro hex
    have hsome : (s.find? (fun e => e.name == term)).isSome := by
      rw [List.find?_isSome]
      obtain ⟨e, he, hn⟩ := hex
      exact ⟨e, he, beq_iff_eq.mpr hn⟩
    obtain ⟨e, he⟩ := Option.isSome_iff_exists.mp hsome
    refine ⟨e, ?_, List.mem_of_find?_eq_some he, by simpa using List.find?_some he⟩
    unfold load_cvterm
    rw [he]
  · intro hall
    have hnone : s.find? (fun e => e.name == term) = none := by
      rw [List.find?_eq_none]
      intro e he
      simpa using hall e he
    unfold load_cvterm
    rw [hnone]
  · intro hex
    have hsome : (s.find? (fun e => e.uniquename == pn)).isSome := by
      rw [List.find?_isSome]
      obtain ⟨e, he, hn⟩ := hex
      exact ⟨e, he, beq_iff_eq.mpr hn⟩
    obtain ⟨e, he⟩ := Option.isSome_iff_exists.mp hsome
    refine ⟨e, ?_, List.mem_of_find?_eq_some he, by simpa using List.find?_some he⟩
    unfold load_pub
    rw [he]
  · intro hall
    have hnone : s.find? (fun e => e.uniquename == pn) = none := by
      rw [List.find?_eq_none]
      intro e he
      simpa using hall e he
    unfold load_pub
    rw [hnone]
  · intro hex
    have hsome : (s.find? (fun e => e.abbreviation == on')).isSome := by
      rw [List.find?_isSome]
      obtain ⟨e, he, hn⟩ := hex
      exact ⟨e, he, beq_iff_eq.mpr hn⟩
    obtain ⟨e, he⟩ := Option.isSome_iff_exists.mp hsome
    refine ⟨e, ?_, List.mem_of_find?_eq_some he, by simpa using List.find?_some he⟩
    unfold load_organism
    rw [he]
  · intro hall
    have hnone : s.find? (fun e => e.abbreviation == on') = none := by
      rw [List.find?_eq_none]
      intro e he
      simpa using hall e he
    unfold load_organism
    rw [hnone]

/-- Witness for C8_missing_reference at concrete inputs: a present CV term is
returned with the table unchanged, and an absent organism produces the fatal
message naming it. -/
theorem C8_missing_reference_witness :
    (∃ e, load_cvterm "note" [CvTerm.mk 10 1 1 "note" false] =
        .ok (e, [CvTerm.mk 10 1 1 "note" false]) ∧
      e ∈ [CvTerm.mk 10 1 1 "note" false] ∧ e.name = "note") ∧
    load_organism "testorg" [] = .error ("Organism " ++ "testorg" ++ " not present in database") :=
  ⟨(C8_missing_reference.1 "note" [CvTerm.mk 10 1 1 "note" false]).1
      ⟨CvTerm.mk 10 1 1 "note" false, List.mem_singleton.mpr rfl, rfl⟩,
   (C8_missing_reference.2.2 "testorg" []).2 (by intro e he; cases he)⟩

lemma mark_feature_no_match (org : Organism) (un : String) :
    ∀ s : List Feature,
      (∀ e ∈ s, (e.organism_id == org.organism_id && e.uniquename == un) = false) →
      ∃ m, mark_feature_as_obsolete org un s = .error m := by
  intro s
  induction s with
  | nil => intro _; exact ⟨_, rfl⟩
  | cons e rest ih =>
    intro h
    have he : (e.organism_id == org.organism_id && e.uniquename == un) = false :=
      h e (List.mem_cons_self e rest)
    obtain ⟨m, hm⟩ := ih fun x hx => h x (List.mem_cons_of_mem e hx)
    refine ⟨m, ?_⟩
    simp only [mark_feature_as_obsolete]
    rw [he]
    simp only [Bool.false_eq_true, if_false]
    rw [hm]

lemma mark_feature_first_match (org : Organism) (un : String) (e : Feature)
    (post : List Feature) (he : (e.organism_id == org.organism_id && e.uniquename == un) = true) :
    ∀ pre : List Feature,
      (∀ x ∈ pre, (x.organism_id == org.organism_id && x.uniquename == un) = false) →
      (e.is_obsolete = true →
        mark_feature_as_obsolete org un (pre ++ e :: post) = .ok (e, pre ++ e :: post, [])) ∧
      (e.is_obsolete = false →
        mark_feature_as_obsolete org un (pre ++ e :: post) =
          .ok ({ e with is_obsolete := true }, pre ++ { e with is_obsolete := true } :: post,
               ["Marked feature " ++ e.uniquename ++ " as obsolete"])) := by
  intro pre
  induction pre with
  | nil =>
    intro _
    constructor
    · intro hob
      simp only [List.nil_append, mark_feature_as_obsolete]
      rw [he]
      simp [hob]
    · intro hob
      simp only [List.nil_append, mark_feature_as_obsolete]
      rw [he]
      simp [hob]
  | cons x pre' ih =>
    intro h
    have hx : (x.organism_id == org.organism_id && x.uniquename == un) = false :=
      h x (List.mem_cons_self x pre')
    obtain ⟨ih1, ih2⟩ := ih fun y hy => h y (List.mem_cons_of_mem x hy)
    constructor
    · intro hob
      simp only [List.cons_append, mark_feature_as_obsolete]
      rw [hx]
      simp only [Bool.false_eq_true, if_false, List.append_eq]
      rw [ih1 hob]
    · intro hob
      simp only [List.cons_append, mark_feature_as_obsolete]
      rw [hx]
      simp only [Bool.false_eq_true, if_false, List.append_eq]
      rw [ih2 hob]

/-- C9. Mark-obsolete contract: when the feature table holds a matching
feature (first match on (organism_id, uniquename)) whose obsolete flag is
false, mark_obsolete raises the flag and emits exactly one audit line; when
the matching feature's flag is already true the call is a no-op leaving the
table unchanged and emitting no audit line; when no feature matches, the call
fails fatally. -/
theorem C9_mark_obsolete_contract (org : Organism) (un : String) :
    (∀ s : List Feature,
      (∀ e ∈ s, (e.organism_id == org.organism_id && e.uniquename == un) = false) →
      ∃ m, mark_feature_as_obsolete org un s = .error m) ∧
    (∀ (pre post : List Feature) (e : Feature),
      (∀ x ∈ pre, (x.organism_id == org.organism_id && x.uniquename == un) = false) →
      (e.organism_id == org.organism_id && e.uniquename == un) = true →
      (e.is_obsolete = true →
        mark_feature_as_obsolete org un (pre ++ e :: post) = .ok (e, pre ++ e :: post, [])) ∧
      (e.is_obsolete = false →
        mark_feature_as_obsolete org un (pre ++ e :: post) =
          .ok ({ e with is_obsolete := true }, pre ++ { e with is_obsolete := true } :: post,
               ["Marked feature " ++ e.uniquename ++ " as obsolete"]))) :=
  ⟨mark_feature_no_match org un,
   fun pre post e hpre he => mark_feature_first_match org un e post he pre hpre⟩

/-- Witness for C9_mark_obsolete_contract at concrete inputs: an absent
feature fails fatally, an already-obsolete feature is a no-op, and a
non-obsolete feature has its flag raised with one audit line. -/
theorem C9_mark_obsolete_contract_witness :
    (∃ m, mark_feature_as_obsolete (Organism.mk 1 "org1") "gene1" [] = .error m) ∧
    mark_feature_as_obsolete (Organism.mk 1 "org1") "gene1"
        ([] ++ Feature.mk 1 2 "gene1" 3 none none none none false true :: []) =
      .ok (Feature.mk 1 2 "gene1" 3 none none none none false true,
           [] ++ Feature.mk 1 2 "gene1" 3 none none none none false true :: [], []) ∧
    mark_feature_as_obsolete (Organism.mk 1 "org1") "gene1"
        ([] ++ Feature.mk 1 2 "gene1" 3 none none none none false false :: []) =
      .ok (Feature.mk 1 2 "gene1" 3 none none none none false true,
           [] ++ Feature.mk 1 2 "gene1" 3 none none none none false true :: [],
           ["Marked feature " ++ "gene1" ++ " as obsolete"]) :=
  ⟨(C9_mark_obsolete_contract (Organism.mk 1 "org1") "gene1").1 [] (by intro e he; cases he),
   ((C9_mark_obsolete_contract (Organism.mk 1 "org1") "gene1").2 [] []
      (Feature.mk 1 2 "gene1" 3 none none none none false true)
      (by intro x hx; cases hx) rfl).1 rfl,
   ((C9_mark_obsolete_contract (Organism.mk 1 "org1") "gene1").2 [] []
      (Feature.mk 1 2 "gene1" 3 none none none none false false)
      (by intro x hx; cases hx) rfl).2 rfl⟩

/-- C4, counterexample. Lookup entities can be created by this core: the cv
upsert applied to an empty cv table inserts a new controlled vocabulary row
(with an audit line), so the set of rows in the cv table differs before and
after the operation. -/
theorem C4_counterexample :
    (handle_cv (Cv.mk 1 "biological_process") []).2.1 = [Cv.mk 1 "biological_process"] ∧
    (handle_cv (Cv.mk 1 "biological_process") []).2.2 =
      ["Inserted controlled vocabulary " ++ "biological_process"] ∧
    ([Cv.mk 1 "biological_process"] : List Cv) ≠ ([] : List Cv) :=
  ⟨rfl, rfl, by decide⟩

/-- C4, amended. Lookup entities are never deleted or modified by this core:
each lookup-table upsert (_handle_cv, _handle_cvterm, _handle_db,
_handle_dbxref) either leaves its table exactly as it was (whenever an entry
matching the candidate's natural key exists) or appends the candidate as a new
row; existing rows are never removed or changed. -/
theorem C4_amended_frame :
    (∀ (n : Cv) (s : List Cv),
      ((handle_cv n s).2.1 = s ∨ (handle_cv n s).2.1 = s ++ [n]) ∧
      ((∃ e ∈ s, e.name = n.name) → (handle_cv n s).2.1 = s)) ∧
    (∀ (n : CvTerm) (vocab : String) (s : List CvTerm),
      ((handle_cvterm n vocab s).2.1 = s ∨ (handle_cvterm n vocab s).2.1 = s ++ [n]) ∧
      ((∃ e ∈ s, e.dbxref_id = n.dbxref_id ∨ (e.cv_id = n.cv_id ∧ e.name = n.name)) →
        (handle_cvterm n vocab s).2.1 = s)) ∧
    (∀ (n : Db) (s : List Db),
      ((handle_db n s).2.1 = s ∨ (handle_db n s).2.1 = s ++ [n]) ∧
      ((∃ e ∈ s, e.name = n.name) → (handle_db n s).2.1 = s)) ∧
    (∀ (n : DbxRef) (auth : String) (s : List DbxRef),
      ((handle_dbxref n auth s).2.1 = s ∨ (handle_dbxref n auth s).2.1 = s ++ [n]) ∧
      ((∃ e ∈ s, e.db_id = n.db_id ∧ e.accession = n.accession) →
        (handle_dbxref n auth s).2.1 = s)) := by
  refine ⟨fun n s => ⟨?_, ?_⟩, fun n vocab s => ⟨?_, ?_⟩, fun n s => ⟨?_, ?_⟩,
    fun n auth s => ⟨?_, ?_⟩⟩
  · unfold handle_cv
    cases h : s.find? (fun e => e.name == n.name) with
    | none => exact Or.inr rfl
    | some e => exact Or.inl rfl
  · intro hex
    have hsome : (s.find? (fun e => e.name == n.name)).isSome := by
      rw [List.find?_isSome]
      obtain ⟨e, he, hn⟩ := hex
      exact ⟨e, he, beq_iff_eq.mpr hn⟩
    obtain ⟨e, he⟩ := Option.isSome_iff_exists.mp hsome
    unfold handle_cv
    rw [he]
  · unfold handle_cvterm
    cases h1 : s.find? (fun e => e.dbxref_id == n.dbxref_id) with
    | some e => exact Or.inl rfl
    | none =>
      cases h2 : s.find? (fun e => e.cv_id == n.cv_id && e.name == n.name) with
      | some e => exact Or.inl rfl
      | none => exact Or.inr rfl
  · intro hex
    unfold handle_cvterm
    cases h1 : s.find? (fun e => e.dbxref_id == n.dbxref_id) with
    | some e => rfl
    | none =>
      cases h2 : s.find? (fun e => e.cv_id == n.cv_id && e.name == n.name) with
      | some e => rfl
      | none =>
        exfalso
        obtain ⟨e, he, hcase⟩ := hex
        rcases hcase with hd | ⟨hc, hn⟩
        · have := List.find?_eq_none.mp h1 e he
          simp [hd] at this
        · have := List.find?_eq_none.mp h2 e he
          simp [hc, hn] at this
  · unfold handle_db
    cases h : s.find? (fun e => e.name == n.name) with
    | none => exact Or.inr rfl
    | some e => exact Or.inl rfl
  · intro hex
    have hsome : (s.find? (fun e => e.name == n.name)).isSome := by
      rw [List.find?_isSome]
      obtain ⟨e, he, hn⟩ := hex
      exact ⟨e, he, beq_iff_eq.mpr hn⟩
    obtain ⟨e, he⟩ := Option.isSome_iff_exists.mp hsome
    unfold handle_db
    rw [he]
  · unfold handle_dbxref
    cases h : s.find? (fun e => e.db_id == n.db_id && e.accession == n.accession) with
    | none => exact Or.inr rfl
    | some e => exact Or.inl rfl
  · intro hex
    have hsome : (s.find? (fun e => e.db_id == n.db_id && e.accession == n.accession)).isSome := by
      rw [List.find?_isSome]
      obtain ⟨e, he, hn⟩ := hex
      refine ⟨e, he, ?_⟩
      simp [hn.1, hn.2]
    obtain ⟨e, he⟩ := Option.isSome_iff_exists.mp hsome
    unfold handle_dbxref
    rw [he]

/-- Witness for C4_amended_frame at a concrete input: the cv upsert and the
cvterm upsert leave their tables untouched when a matching entry exists. -/
theorem C4_amended_frame_witness :
    (handle_cv (Cv.mk 2 "biological_process") [Cv.mk 1 "biological_process"]).2.1 =
      [Cv.mk 1 "biological_process"] ∧
    (handle_cvterm (CvTerm.mk 7 1 9 "note" false) "feature_property"
        [CvTerm.mk 10 1 9 "comment" false]).2.1 = [CvTerm.mk 10 1 9 "comment" false] :=
  ⟨(C4_amended_frame.1 (Cv.mk 2 "biological_process") [Cv.mk 1 "biological_process"]).2
      ⟨Cv.mk 1 "biological_process", List.mem_singleton.mpr rfl, rfl⟩,
   (C4_amended_frame.2.1 (CvTerm.mk 7 1 9 "note" false) "feature_property"
      [CvTerm.mk 10 1 9 "comment" false]).2
      ⟨CvTerm.mk 10 1 9 "comment" false, List.mem_singleton.mpr rfl, Or.inl rfl⟩⟩

end ChadoTools
